import Mathlib

/-!
# DyfusionTransfer (core/vm/tax_transfer.go)

A shallow embedding of the taxed value transfer and of the parts of its
environment it calls: 256-bit unsigned arithmetic (`uint256`), the chain
configuration's tax fields, the ledger interface `StateDB`, and two
implementations of that interface (one recording the calls, one holding
256-bit balances).
-/

namespace DFX

/-! ## 256-bit unsigned integers (github.com/holiman/uint256) -/

namespace uint256

/-- The modulus of the 256-bit unsigned integer type. -/
def MOD : Nat := 2 ^ 256

/-- `uint256.NewInt(v)`: the 256-bit value of a 64-bit unsigned integer. -/
def NewInt (v : Nat) : Nat := v

/-- `z.Mul(x, y)`: the product modulo 2^256. -/
def Mul (x y : Nat) : Nat := (x * y) % MOD

/-- `z.Div(x, y)`: the truncated quotient, 0 when the divisor is 0. -/
def Div (x y : Nat) : Nat := if y = 0 then 0 else x / y

/-- `z.Sub(x, y)`: the difference modulo 2^256. -/
def Sub (x y : Nat) : Nat := (x + (MOD - y % MOD)) % MOD

/-- `z.Add(x, y)`: the sum modulo 2^256. -/
def Add (x y : Nat) : Nat := (x + y) % MOD

/-- `x.IsZero()`. -/
def IsZero (x : Nat) : Bool := x == 0

end uint256

/-! ## Addresses, configuration, change reasons -/

/-- `common.Address`: a 20-byte account identifier. -/
abbrev Address := Fin (2 ^ 160)

/-- Modelled from the spec: the tax fields of `params.ChainConfig` (the
declaration is not in the source file): `TaxEnabled`, `TaxRate` (a 64-bit
unsigned percentage, passed to `uint256.NewInt`) and `TreasuryAddress`. -/
structure ChainConfig where
  TaxEnabled : Bool
  TaxRate : Nat
  TreasuryAddress : Address

/-- Modelled from the spec: the change-reason tags of the tracing package
(the declaration is not in the source file); only `BalanceChangeTransfer`
is used by the transfer. -/
inductive BalanceChangeReason where
  | BalanceChangeUnspecified
  | BalanceChangeTransfer
  deriving DecidableEq, Repr

/-- The ledger interface consumed by the transfer: the two mutation methods
of `StateDB` it calls, over an arbitrary state type. -/
structure StateDB (σ : Type) where
  SubBalance : σ → Address → Nat → BalanceChangeReason → σ
  AddBalance : σ → Address → Nat → BalanceChangeReason → σ

/-! ## The transfer -/

/-- The value `tax` of the taxed path: `Mul(amount, NewInt(rate))` followed by
`Div(tax, NewInt(100))`. -/
def tax (amount rate : Nat) : Nat :=
  uint256.Div (uint256.Mul amount (uint256.NewInt rate)) (uint256.NewInt 100)

/-- The value `net` of the taxed path: `Sub(amount, tax)`. -/
def net (amount rate : Nat) : Nat :=
  uint256.Sub amount (tax amount rate)

/-- The guard of the vanilla-transfer branch. -/
def bypass (from_ to_ : Address) (amount : Nat) (cfg : ChainConfig)
    (coinbase : Address) : Bool :=
  !cfg.TaxEnabled || uint256.IsZero amount ||
    from_ == cfg.TreasuryAddress ||
    to_ == cfg.TreasuryAddress ||
    to_ == coinbase

/-- `DyfusionTransfer(db, from, to, amount, cfg, coinbase)`, with the ledger
threaded through as a value. -/
def DyfusionTransfer {σ : Type} (I : StateDB σ) (db : σ) (from_ to_ : Address)
    (amount : Nat) (cfg : ChainConfig) (coinbase : Address) : σ :=
  if bypass from_ to_ amount cfg coinbase then
    let db := I.SubBalance db from_ amount .BalanceChangeTransfer
    let db := I.AddBalance db to_ amount .BalanceChangeTransfer
    db
  else
    let tax := tax amount cfg.TaxRate
    let net := net amount cfg.TaxRate
    let db := I.SubBalance db from_ amount .BalanceChangeTransfer
    let db := I.AddBalance db to_ net .BalanceChangeTransfer
    let db := I.AddBalance db cfg.TreasuryAddress tax .BalanceChangeTransfer
    db

/-! ## A ledger that records the calls it receives -/

/-- One ledger mutation, as issued through the interface. -/
inductive Mutation where
  | SubBalance (addr : Address) (amount : Nat) (reason : BalanceChangeReason)
  | AddBalance (addr : Address) (amount : Nat) (reason : BalanceChangeReason)
  deriving DecidableEq, Repr

/-- The recording ledger: its state is the list of calls so far, oldest
first. -/
def recorder : StateDB (List Mutation) where
  SubBalance := fun log a v r => log ++ [Mutation.SubBalance a v r]
  AddBalance := fun log a v r => log ++ [Mutation.AddBalance a v r]

/-- The mutations one call of the transfer issues, in order. -/
def mutations (from_ to_ : Address) (amount : Nat) (cfg : ChainConfig)
    (coinbase : Address) : List Mutation :=
  DyfusionTransfer recorder [] from_ to_ amount cfg coinbase

/-! ## A ledger of 256-bit balances -/

/-- The balance of every account. -/
abbrev Ledger := Address → Nat

/-- Every balance is a 256-bit value. -/
def Ledger.WF (db : Ledger) : Prop := ∀ a, db a < uint256.MOD

/-- Modelled from the spec: the ledger's implementation of `StateDB` is not in
the source file. Each call unconditionally adjusts the named account's
balance, a 256-bit unsigned integer, by the given amount (`Sub` and `Add` of
`uint256`), whatever the reason tag. -/
def ledger : StateDB Ledger where
  SubBalance := fun db a v _ => Function.update db a (uint256.Sub (db a) v)
  AddBalance := fun db a v _ => Function.update db a (uint256.Add (db a) v)

/-- Apply one recorded mutation to the balances. -/
def applyMutation (db : Ledger) : Mutation → Ledger
  | .SubBalance a v r => ledger.SubBalance db a v r
  | .AddBalance a v r => ledger.AddBalance db a v r

/-- Apply recorded mutations in order. -/
def replay (db : Ledger) (ms : List Mutation) : Ledger :=
  ms.foldl applyMutation db

/-- No credit among the mutations, applied in order from `db`, takes a balance
out of the 256-bit range. -/
def creditsFit (db : Ledger) : List Mutation → Bool
  | [] => true
  | .SubBalance a v r :: ms => creditsFit (ledger.SubBalance db a v r) ms
  | .AddBalance a v r :: ms =>
      decide (db a + v < uint256.MOD) && creditsFit (ledger.AddBalance db a v r) ms

/-- The sum of the balances of the listed accounts. -/
def balanceSum (db : Ledger) (accounts : List Address) : Nat :=
  (accounts.map db).sum

/-- The sum of the balances of all accounts. -/
def totalSupply (db : Ledger) : Nat := Finset.univ.sum db

/-! ## Sample accounts and ledgers -/

/-- A sender account. -/
def acctA : Address := 1

/-- A recipient account. -/
def acctB : Address := 2

/-- The treasury account of the sample configurations. -/
def acctT : Address := 3

/-- The coinbase of the sample block. -/
def acctC : Address := 4

/-- Tax enabled at the given rate, treasury `acctT`. -/
def cfgRate (rate : Nat) : ChainConfig := ⟨true, rate, acctT⟩

/-- The ledger holding `a`, `b`, `t`, `c` on the four sample accounts and 0
elsewhere. -/
def sampleLedger (a b t c : Nat) : Ledger := fun x =>
  if x = acctA then a else if x = acctB then b else if x = acctT then t
  else if x = acctC then c else 0

/-- The largest 256-bit value. -/
def maxUint256 : Nat := uint256.MOD - 1

/-! ## Arithmetic of the taxed path -/

theorem uint256.MOD_eq :
    uint256.MOD =
      115792089237316195423570985008687907853269984665640564039457584007913129639936 := by
  decide

theorem uint256.Sub_of_le {x y : Nat} (hx : x < uint256.MOD) (hy : y ≤ x) :
    uint256.Sub x y = x - y := by
  unfold uint256.Sub
  rw [uint256.MOD_eq] at *
  omega

theorem uint256.Add_of_lt {x y : Nat} (h : x + y < uint256.MOD) :
    uint256.Add x y = x + y := by
  unfold uint256.Add
  exact Nat.mod_eq_of_lt h

theorem uint256.Sub_lt (x y : Nat) : uint256.Sub x y < uint256.MOD := by
  unfold uint256.Sub
  exact Nat.mod_lt _ (by rw [uint256.MOD_eq]; decide)

theorem uint256.Add_lt (x y : Nat) : uint256.Add x y < uint256.MOD := by
  unfold uint256.Add
  exact Nat.mod_lt _ (by rw [uint256.MOD_eq]; decide)

theorem tax_eq (amount rate : Nat) :
    tax amount rate = (amount * rate) % uint256.MOD / 100 := by
  simp [tax, uint256.Div, uint256.Mul, uint256.NewInt]

theorem tax_le_amount {amount rate : Nat} (ha : amount < uint256.MOD)
    (hr : rate ≤ 100) : tax amount rate ≤ amount := by
  rw [tax_eq]
  have hp : amount * rate ≤ amount * 100 := Nat.mul_le_mul_left amount hr
  generalize amount * rate = p at hp
  rw [uint256.MOD_eq] at *
  omega

theorem tax_of_no_wrap {amount rate : Nat} (h : amount * rate < uint256.MOD) :
    tax amount rate = amount * rate / 100 := by
  rw [tax_eq, Nat.mod_eq_of_lt h]

theorem net_eq_sub {amount rate : Nat} (ha : amount < uint256.MOD)
    (hr : rate ≤ 100) : net amount rate = amount - tax amount rate := by
  unfold net
  exact uint256.Sub_of_le ha (tax_le_amount ha hr)

/-! ## The two paths -/

theorem bypass_iff (from_ to_ : Address) (amount : Nat) (cfg : ChainConfig)
    (coinbase : Address) :
    bypass from_ to_ amount cfg coinbase = true ↔
      (cfg.TaxEnabled = false ∨ amount = 0 ∨ from_ = cfg.TreasuryAddress ∨
        to_ = cfg.TreasuryAddress ∨ to_ = coinbase) := by
  simp [bypass, uint256.IsZero, or_assoc]

theorem bypass_false_iff (from_ to_ : Address) (amount : Nat) (cfg : ChainConfig)
    (coinbase : Address) :
    bypass from_ to_ amount cfg coinbase = false ↔
      (cfg.TaxEnabled = true ∧ amount ≠ 0 ∧ from_ ≠ cfg.TreasuryAddress ∧
        to_ ≠ cfg.TreasuryAddress ∧ to_ ≠ coinbase) := by
  simp [bypass, uint256.IsZero, and_assoc]

theorem DyfusionTransfer_of_bypass {σ : Type} (I : StateDB σ) (db : σ)
    {from_ to_ : Address} {amount : Nat} {cfg : ChainConfig} {coinbase : Address}
    (h : bypass from_ to_ amount cfg coinbase = true) :
    DyfusionTransfer I db from_ to_ amount cfg coinbase =
      I.AddBalance (I.SubBalance db from_ amount .BalanceChangeTransfer) to_ amount
        .BalanceChangeTransfer := by
  simp [DyfusionTransfer, h]

theorem DyfusionTransfer_of_taxed {σ : Type} (I : StateDB σ) (db : σ)
    {from_ to_ : Address} {amount : Nat} {cfg : ChainConfig} {coinbase : Address}
    (h : bypass from_ to_ amount cfg coinbase = false) :
    DyfusionTransfer I db from_ to_ amount cfg coinbase =
      I.AddBalance
        (I.AddBalance (I.SubBalance db from_ amount .BalanceChangeTransfer) to_
          (net amount cfg.TaxRate) .BalanceChangeTransfer)
        cfg.TreasuryAddress (tax amount cfg.TaxRate) .BalanceChangeTransfer := by
  simp [DyfusionTransfer, h]

theorem mutations_of_bypass
    {from_ to_ : Address} {amount : Nat} {cfg : ChainConfig} {coinbase : Address}
    (h : bypass from_ to_ amount cfg coinbase = true) :
    mutations from_ to_ amount cfg coinbase =
      [.SubBalance from_ amount .BalanceChangeTransfer,
        .AddBalance to_ amount .BalanceChangeTransfer] := by
  simp [mutations, DyfusionTransfer_of_bypass _ _ h, recorder]

theorem mutations_of_taxed
    {from_ to_ : Address} {amount : Nat} {cfg : ChainConfig} {coinbase : Address}
    (h : bypass from_ to_ amount cfg coinbase = false) :
    mutations from_ to_ amount cfg coinbase =
      [.SubBalance from_ amount .BalanceChangeTransfer,
        .AddBalance to_ (net amount cfg.TaxRate) .BalanceChangeTransfer,
        .AddBalance cfg.TreasuryAddress (tax amount cfg.TaxRate) .BalanceChangeTransfer] := by
  simp [mutations, DyfusionTransfer_of_taxed _ _ h, recorder]

theorem ledger_SubBalance_apply (db : Ledger) (a : Address) (v : Nat)
    (r : BalanceChangeReason) (b : Address) :
    ledger.SubBalance db a v r b = if b = a then uint256.Sub (db a) v else db b := by
  simp [ledger, Function.update_apply]

theorem ledger_AddBalance_apply (db : Ledger) (a : Address) (v : Nat)
    (r : BalanceChangeReason) (b : Address) :
    ledger.AddBalance db a v r b = if b = a then uint256.Add (db a) v else db b := by
  simp [ledger, Function.update_apply]

/-- The three accounts' balances sum, over the distinct ones, to the same value
in two ledgers as soon as the sums over the actual coincidence pattern agree. -/
theorem balanceSum_dedup3 (d e : Ledger) (f t T : Address)
    (h1 : f = t → f = T → e f = d f)
    (h2 : f = t → f ≠ T → e f + e T = d f + d T)
    (h3 : f ≠ t → f = T → e f + e t = d f + d t)
    (h4 : f ≠ t → t = T → e f + e t = d f + d t)
    (h5 : f ≠ t → f ≠ T → t ≠ T → e f + e t + e T = d f + d t + d T) :
    balanceSum e [f, t, T].dedup = balanceSum d [f, t, T].dedup := by
  rcases eq_or_ne f t with hft | hft
  · subst hft
    rcases eq_or_ne f T with hfT | hfT
    · subst hfT
      simpa [balanceSum] using h1 rfl rfl
    · simpa [balanceSum, hfT] using h2 rfl hfT
  · rcases eq_or_ne f T with hfT | hfT
    · subst hfT
      have := h3 hft rfl
      simp [balanceSum, hft, hft.symm]
      omega
    · rcases eq_or_ne t T with htT | htT
      · subst htT
        simpa [balanceSum, hft] using h4 hft rfl
      · have := h5 hft hfT htT
        simp [balanceSum, hft, hfT, htT]
        omega

/-- Balances after a debit of `a` from `f` followed by a credit of `v` to `t`. -/
theorem debit_credit_apply (db : Ledger) (f t : Address) (a v : Nat)
    (r r2 : BalanceChangeReason) (x : Address) :
    ledger.AddBalance (ledger.SubBalance db f a r) t v r2 x =
      if x = t then
        uint256.Add (if t = f then uint256.Sub (db f) a else db t) v
      else if x = f then uint256.Sub (db f) a else db x := by
  simp only [ledger_AddBalance_apply, ledger_SubBalance_apply]

theorem bypass_balances {db : Ledger} {f t : Address} {a : Nat}
    (r r2 : BalanceChangeReason)
    (hwf : db.WF) (hsuff : a ≤ db f) (hft : f ≠ t) (hfit : db t + a < uint256.MOD) :
    ledger.AddBalance (ledger.SubBalance db f a r) t a r2 f = db f - a ∧
    ledger.AddBalance (ledger.SubBalance db f a r) t a r2 t = db t + a ∧
    ∀ x, x ≠ f → x ≠ t →
      ledger.AddBalance (ledger.SubBalance db f a r) t a r2 x = db x := by
  refine ⟨?_, ?_, ?_⟩
  · rw [debit_credit_apply, if_neg hft, if_pos rfl, uint256.Sub_of_le (hwf f) hsuff]
  · rw [debit_credit_apply, if_pos rfl, if_neg hft.symm, uint256.Add_of_lt hfit]
  · intro x hxf hxt
    rw [debit_credit_apply, if_neg hxt, if_neg hxf]

theorem bypass_self {db : Ledger} {f : Address} {a : Nat}
    (r r2 : BalanceChangeReason) (hwf : db.WF) (hsuff : a ≤ db f) :
    ledger.AddBalance (ledger.SubBalance db f a r) f a r2 = db := by
  funext x
  rw [debit_credit_apply]
  have hf := hwf f
  by_cases hx : x = f
  · subst hx
    simp only [if_true, uint256.Sub_of_le hf hsuff]
    rw [uint256.Add_of_lt (by omega)]
    omega
  · simp [hx]

theorem taxed_balances {db : Ledger} {f t T : Address} {a n x : Nat}
    (r r2 r3 : BalanceChangeReason)
    (hwf : db.WF) (hsuff : a ≤ db f) (hft : f ≠ t) (hfT : f ≠ T) (htT : t ≠ T)
    (hfit : db t + n < uint256.MOD) (hfitT : db T + x < uint256.MOD) :
    ledger.AddBalance (ledger.AddBalance (ledger.SubBalance db f a r) t n r2) T x r3 f
      = db f - a ∧
    ledger.AddBalance (ledger.AddBalance (ledger.SubBalance db f a r) t n r2) T x r3 t
      = db t + n ∧
    ledger.AddBalance (ledger.AddBalance (ledger.SubBalance db f a r) t n r2) T x r3 T
      = db T + x ∧
    ∀ y, y ≠ f → y ≠ t → y ≠ T →
      ledger.AddBalance (ledger.AddBalance (ledger.SubBalance db f a r) t n r2) T x r3 y
        = db y := by
  refine ⟨?_, ?_, ?_, ?_⟩
  · rw [ledger_AddBalance_apply, if_neg hfT, debit_credit_apply, if_neg hft, if_pos rfl,
      uint256.Sub_of_le (hwf f) hsuff]
  · rw [ledger_AddBalance_apply, if_neg htT, debit_credit_apply, if_pos rfl, if_neg hft.symm,
      uint256.Add_of_lt hfit]
  · rw [ledger_AddBalance_apply, if_pos rfl, debit_credit_apply, if_neg htT.symm,
      if_neg hfT.symm, uint256.Add_of_lt hfitT]
  · intro y hyf hyt hyT
    rw [ledger_AddBalance_apply, if_neg hyT, debit_credit_apply, if_neg hyt, if_neg hyf]

theorem taxed_self_balances {db : Ledger} {f T : Address} {a n x : Nat}
    (r r2 r3 : BalanceChangeReason)
    (hwf : db.WF) (hsuff : a ≤ db f) (hfT : f ≠ T) (hn : n ≤ a)
    (hfitT : db T + x < uint256.MOD) :
    ledger.AddBalance (ledger.AddBalance (ledger.SubBalance db f a r) f n r2) T x r3 f
      = db f - a + n ∧
    ledger.AddBalance (ledger.AddBalance (ledger.SubBalance db f a r) f n r2) T x r3 T
      = db T + x ∧
    ∀ y, y ≠ f → y ≠ T →
      ledger.AddBalance (ledger.AddBalance (ledger.SubBalance db f a r) f n r2) T x r3 y
        = db y := by
  have hf := hwf f
  refine ⟨?_, ?_, ?_⟩
  · rw [ledger_AddBalance_apply, if_neg hfT, debit_credit_apply, if_pos rfl, if_pos rfl,
      uint256.Sub_of_le hf hsuff, uint256.Add_of_lt (by omega)]
  · rw [ledger_AddBalance_apply, if_pos rfl, debit_credit_apply, if_neg hfT.symm,
      if_neg hfT.symm, uint256.Add_of_lt hfitT]
  · intro y hyf hyT
    rw [ledger_AddBalance_apply, if_neg hyT, debit_credit_apply, if_neg hyf, if_neg hyf]

theorem sampleLedger_WF {a b t c : Nat} (ha : a < uint256.MOD) (hb : b < uint256.MOD)
    (ht : t < uint256.MOD) (hc : c < uint256.MOD) : (sampleLedger a b t c).WF := by
  intro x
  unfold sampleLedger
  split_ifs
  · exact ha
  · exact hb
  · exact ht
  · exact hc
  · rw [uint256.MOD_eq]; decide

/-! ## Wrapping arithmetic and the total supply -/

theorem tax_exact_iff (amount rate : Nat) :
    tax amount rate = amount * rate / 100 ↔ amount * rate < uint256.MOD := by
  rw [tax_eq]
  generalize amount * rate = p
  rw [uint256.MOD_eq]
  omega

theorem net_add_tax_mod (amount rate : Nat) :
    (net amount rate + tax amount rate) % uint256.MOD = amount % uint256.MOD := by
  unfold net uint256.Sub
  generalize tax amount rate = t
  rw [uint256.MOD_eq]
  omega

theorem totalSupply_update (db : Ledger) (a : Address) (v : Nat) :
    totalSupply (Function.update db a v) + db a = totalSupply db + v := by
  unfold totalSupply
  rw [Finset.sum_update_of_mem (Finset.mem_univ a), Finset.sdiff_singleton_eq_erase,
    ← Finset.add_sum_erase Finset.univ db (Finset.mem_univ a)]
  omega

theorem totalSupply_AddBalance (db : Ledger) (a : Address) (v : Nat)
    (r : BalanceChangeReason) :
    totalSupply (ledger.AddBalance db a v r) % uint256.MOD =
      (totalSupply db + v) % uint256.MOD := by
  have h := totalSupply_update db a (uint256.Add (db a) v)
  show totalSupply (Function.update db a (uint256.Add (db a) v)) % uint256.MOD = _
  unfold uint256.Add at *
  rw [uint256.MOD_eq] at *
  omega

theorem totalSupply_SubBalance (db : Ledger) (a : Address) (v : Nat)
    (r : BalanceChangeReason) :
    (totalSupply (ledger.SubBalance db a v r) + v) % uint256.MOD =
      totalSupply db % uint256.MOD := by
  have h := totalSupply_update db a (uint256.Sub (db a) v)
  show (totalSupply (Function.update db a (uint256.Sub (db a) v)) + v) % uint256.MOD = _
  unfold uint256.Sub at *
  rw [uint256.MOD_eq] at *
  omega

/-- A debit followed by a credit of the same amount to the same account
restores every 256-bit balance, whatever the amount. -/
theorem debit_credit_self {db : Ledger} (f : Address) (a : Nat)
    (r r2 : BalanceChangeReason) (hwf : db.WF) :
    ledger.AddBalance (ledger.SubBalance db f a r) f a r2 = db := by
  funext x
  rw [debit_credit_apply]
  by_cases hx : x = f
  · subst hx
    have hf := hwf x
    simp only [if_true]
    unfold uint256.Add uint256.Sub
    rw [uint256.MOD_eq] at *
    omega
  · simp [hx]

/-! # The claims -/

/-! ## C1: conservation -/

/-- C1. Conservation: with a tax rate of at most 100, a sender balance of at
least `amount` and no credit leaving the 256-bit range, the balances of the
distinct accounts among `from`, `to` and the treasury sum to the same value
before and after `DyfusionTransfer`, whichever path is taken and however the
addresses coincide. -/
theorem C1_conservation (db : Ledger) (from_ to_ : Address) (amount : Nat)
    (cfg : ChainConfig) (coinbase : Address)
    (hwf : db.WF) (hrate : cfg.TaxRate ≤ 100) (hsuff : amount ≤ db from_)
    (hfit : creditsFit db (mutations from_ to_ amount cfg coinbase) = true) :
    balanceSum (DyfusionTransfer ledger db from_ to_ amount cfg coinbase)
        [from_, to_, cfg.TreasuryAddress].dedup =
      balanceSum db [from_, to_, cfg.TreasuryAddress].dedup := by
  have ha : amount < uint256.MOD := lt_of_le_of_lt hsuff (hwf from_)
  by_cases hb : bypass from_ to_ amount cfg coinbase = true
  · rw [DyfusionTransfer_of_bypass _ _ hb]
    rw [mutations_of_bypass hb] at hfit
    simp only [creditsFit, Bool.and_true, decide_eq_true_eq, ledger_SubBalance_apply] at hfit
    rcases eq_or_ne from_ to_ with h | h
    · subst h
      rw [bypass_self _ _ hwf hsuff]
    · rw [if_neg h.symm] at hfit
      obtain ⟨e1, e2, e3⟩ :=
        bypass_balances BalanceChangeReason.BalanceChangeTransfer
          BalanceChangeReason.BalanceChangeTransfer hwf hsuff h hfit
      apply balanceSum_dedup3
      · intro h1; exact absurd h1 h
      · intro h1; exact absurd h1 h
      · intro _ _; rw [e1, e2]; omega
      · intro _ _; rw [e1, e2]; omega
      · intro _ h2 h3; rw [e1, e2, e3 _ h2.symm h3.symm]; omega
  · have hb2 : bypass from_ to_ amount cfg coinbase = false := by simpa using hb
    rw [DyfusionTransfer_of_taxed _ _ hb2]
    rw [mutations_of_taxed hb2] at hfit
    obtain ⟨-, -, hfT, htT, -⟩ := (bypass_false_iff _ _ _ _ _).1 hb2
    have htax := tax_le_amount ha hrate
    have hnet := net_eq_sub ha hrate
    simp only [creditsFit, Bool.and_true, Bool.and_eq_true, decide_eq_true_eq,
      ledger_AddBalance_apply, ledger_SubBalance_apply] at hfit
    rw [if_neg htT.symm, if_neg hfT.symm] at hfit
    rcases eq_or_ne from_ to_ with h | h
    · subst h
      obtain ⟨e1, e2, -⟩ :=
        taxed_self_balances BalanceChangeReason.BalanceChangeTransfer
          BalanceChangeReason.BalanceChangeTransfer BalanceChangeReason.BalanceChangeTransfer
          hwf hsuff hfT (by omega : net amount cfg.TaxRate ≤ amount) hfit.2
      apply balanceSum_dedup3
      · intro _ h2; exact absurd h2 hfT
      · intro _ _; rw [e1, e2]; omega
      · intro h1; exact absurd rfl h1
      · intro h1; exact absurd rfl h1
      · intro h1; exact absurd rfl h1
    · rw [if_neg h.symm] at hfit
      obtain ⟨e1, e2, e3, -⟩ :=
        taxed_balances BalanceChangeReason.BalanceChangeTransfer
          BalanceChangeReason.BalanceChangeTransfer BalanceChangeReason.BalanceChangeTransfer
          hwf hsuff h hfT htT hfit.1 hfit.2
      apply balanceSum_dedup3
      · intro h1; exact absurd h1 h
      · intro h1; exact absurd h1 h
      · intro _ h2; exact absurd h2 hfT
      · intro _ h2; exact absurd h2 htT
      · intro _ _ _; rw [e1, e2, e3]; omega

/-- C1, at rate 5 and amount 1000 between distinct accounts. -/
theorem C1_conservation_witness :
    (sampleLedger 5000 7 11 13).WF ∧ (cfgRate 5).TaxRate ≤ 100 ∧
      1000 ≤ sampleLedger 5000 7 11 13 acctA ∧
      creditsFit (sampleLedger 5000 7 11 13)
        (mutations acctA acctB 1000 (cfgRate 5) acctC) = true ∧
      balanceSum (DyfusionTransfer ledger (sampleLedger 5000 7 11 13) acctA acctB 1000
          (cfgRate 5) acctC) [acctA, acctB, (cfgRate 5).TreasuryAddress].dedup =
        balanceSum (sampleLedger 5000 7 11 13)
          [acctA, acctB, (cfgRate 5).TreasuryAddress].dedup :=
  have hwf : (sampleLedger 5000 7 11 13).WF :=
    sampleLedger_WF (by decide) (by decide) (by decide) (by decide)
  ⟨hwf, by decide, by decide, by decide,
    C1_conservation (sampleLedger 5000 7 11 13) acctA acctB 1000 (cfgRate 5) acctC hwf
      (by decide) (by decide) (by decide)⟩

/-! ## C2: tax on balances -/

/-- C2 (as stated) fails, in two ways. At amount 2^256 - 1 and rate 2, between
distinct accounts and with a sufficient sender balance, the treasury does not
grow by floor(amount * 2 / 100), because the 256-bit product wraps. At amount
1000 and rate 5, a recipient holding 2^256 - 1 does not end 950 higher, because
the credit wraps. -/
theorem C2_counterexample :
    (bypass acctA acctB maxUint256 (cfgRate 2) acctC = false ∧
      maxUint256 ≤ sampleLedger maxUint256 0 0 0 acctA ∧
      DyfusionTransfer ledger (sampleLedger maxUint256 0 0 0) acctA acctB maxUint256
          (cfgRate 2) acctC acctT ≠
        sampleLedger maxUint256 0 0 0 acctT + maxUint256 * 2 / 100) ∧
    (bypass acctA acctB 1000 (cfgRate 5) acctC = false ∧
      1000 ≤ sampleLedger 1000 maxUint256 0 0 acctA ∧
      DyfusionTransfer ledger (sampleLedger 1000 maxUint256 0 0) acctA acctB 1000
          (cfgRate 5) acctC acctB ≠
        sampleLedger 1000 maxUint256 0 0 acctB + (1000 - 1000 * 5 / 100)) := by
  decide

/-- C2 (amended). With a rate of at most 100, no bypass condition holding,
`from`, `to` and the treasury pairwise distinct, a sender balance of at least
`amount`, the product amount * rate below 2^256 and no credit leaving the
256-bit range: the treasury ends floor(amount * rate / 100) higher, `to` ends
amount - floor(amount * rate / 100) higher, and `from` ends exactly `amount`
lower. -/
theorem C2_tax_on_balances (db : Ledger) (from_ to_ : Address) (amount : Nat)
    (cfg : ChainConfig) (coinbase : Address)
    (hwf : db.WF) (hrate : cfg.TaxRate ≤ 100)
    (he : cfg.TaxEnabled = true) (ha : amount ≠ 0) (hfT : from_ ≠ cfg.TreasuryAddress)
    (htT : to_ ≠ cfg.TreasuryAddress) (hc : to_ ≠ coinbase) (hft : from_ ≠ to_)
    (hsuff : amount ≤ db from_) (hprod : amount * cfg.TaxRate < uint256.MOD)
    (hfit : creditsFit db (mutations from_ to_ amount cfg coinbase) = true) :
    DyfusionTransfer ledger db from_ to_ amount cfg coinbase cfg.TreasuryAddress =
        db cfg.TreasuryAddress + amount * cfg.TaxRate / 100 ∧
      DyfusionTransfer ledger db from_ to_ amount cfg coinbase to_ =
        db to_ + (amount - amount * cfg.TaxRate / 100) ∧
      DyfusionTransfer ledger db from_ to_ amount cfg coinbase from_ + amount = db from_ := by
  have hb := (bypass_false_iff from_ to_ amount cfg coinbase).2 ⟨he, ha, hfT, htT, hc⟩
  have hlt : amount < uint256.MOD := lt_of_le_of_lt hsuff (hwf from_)
  have htax := tax_of_no_wrap hprod
  have hnet := net_eq_sub hlt hrate
  rw [mutations_of_taxed hb] at hfit
  simp only [creditsFit, Bool.and_true, Bool.and_eq_true, decide_eq_true_eq,
    ledger_AddBalance_apply, ledger_SubBalance_apply] at hfit
  rw [if_neg htT.symm, if_neg hfT.symm, if_neg hft.symm] at hfit
  obtain ⟨e1, e2, e3, -⟩ :=
    taxed_balances BalanceChangeReason.BalanceChangeTransfer
      BalanceChangeReason.BalanceChangeTransfer BalanceChangeReason.BalanceChangeTransfer
      hwf hsuff hft hfT htT hfit.1 hfit.2
  rw [DyfusionTransfer_of_taxed _ _ hb, e1, e2, e3, hnet, htax]
  refine ⟨rfl, rfl, ?_⟩
  omega

/-- C2 (amended), at rate 5 and amount 1000: A ends 1000 lower, B 950 higher,
T 50 higher. -/
theorem C2_tax_on_balances_witness :
    (DyfusionTransfer ledger (sampleLedger 5000 7 11 13) acctA acctB 1000 (cfgRate 5) acctC
          acctT = 11 + 50 ∧
      DyfusionTransfer ledger (sampleLedger 5000 7 11 13) acctA acctB 1000 (cfgRate 5) acctC
          acctB = 7 + 950 ∧
      DyfusionTransfer ledger (sampleLedger 5000 7 11 13) acctA acctB 1000 (cfgRate 5) acctC
          acctA + 1000 = 5000) :=
  C2_tax_on_balances (sampleLedger 5000 7 11 13) acctA acctB 1000 (cfgRate 5) acctC
    (sampleLedger_WF (by decide) (by decide) (by decide) (by decide))
    (by decide) rfl (by decide) (by decide) (by decide) (by decide) (by decide) (by decide)
    (by decide) (by decide)

/-! ## C3: the tax arithmetic -/

/-- C3 (as stated) fails: at amount 2^256 - 1 and rate 2 the 256-bit product
wraps, and the computed tax differs from floor(amount * 2 / 100). -/
theorem C3_counterexample :
    maxUint256 < uint256.MOD ∧ 2 ≤ 100 ∧
      tax maxUint256 2 ≠ maxUint256 * 2 / 100 := by
  decide

/-- C3 (amended). For a 256-bit amount and a rate of at most 100 whose product
is below 2^256, the computed tax is floor(amount * rate / 100) and the computed
net is amount minus that value. -/
theorem C3_tax_exact_of_no_wrap (amount rate : Nat) (ha : amount < uint256.MOD)
    (hr : rate ≤ 100) (hp : amount * rate < uint256.MOD) :
    tax amount rate = amount * rate / 100 ∧
      net amount rate = amount - amount * rate / 100 := by
  have ht := tax_of_no_wrap hp
  refine ⟨ht, ?_⟩
  rw [net_eq_sub ha hr, ht]

/-- C3 (amended), at amount 101 and rate 5: tax 5, net 96. -/
theorem C3_tax_exact_witness :
    101 < uint256.MOD ∧ 5 ≤ 100 ∧ 101 * 5 < uint256.MOD ∧
      (tax 101 5 = 101 * 5 / 100 ∧ net 101 5 = 101 - 101 * 5 / 100) ∧
      101 * 5 / 100 = 5 ∧ 101 - 101 * 5 / 100 = 96 :=
  ⟨by decide, by decide, by decide,
    C3_tax_exact_of_no_wrap 101 5 (by decide) (by decide) (by decide), by decide, by decide⟩

/-! ## C4: the mutations of the bypass path -/

/-- C4. Under any bypass condition the transfer issues exactly
`SubBalance(from, amount)` then `AddBalance(to, amount)`, both tagged as a
transfer, on every ledger; no further credit (to the treasury or otherwise) is
issued, and the result is the same for every tax rate. -/
theorem C4_bypass_mutations (from_ to_ : Address) (amount : Nat) (cfg : ChainConfig)
    (coinbase : Address)
    (h : cfg.TaxEnabled = false ∨ amount = 0 ∨ from_ = cfg.TreasuryAddress ∨
      to_ = cfg.TreasuryAddress ∨ to_ = coinbase) :
    mutations from_ to_ amount cfg coinbase =
        [Mutation.SubBalance from_ amount BalanceChangeReason.BalanceChangeTransfer,
          Mutation.AddBalance to_ amount BalanceChangeReason.BalanceChangeTransfer] ∧
      (∀ (σ : Type) (I : StateDB σ) (db : σ),
        DyfusionTransfer I db from_ to_ amount cfg coinbase =
          I.AddBalance (I.SubBalance db from_ amount BalanceChangeReason.BalanceChangeTransfer)
            to_ amount BalanceChangeReason.BalanceChangeTransfer) ∧
      (∀ (rate : Nat) (σ : Type) (I : StateDB σ) (db : σ),
        DyfusionTransfer I db from_ to_ amount
            ⟨cfg.TaxEnabled, rate, cfg.TreasuryAddress⟩ coinbase =
          DyfusionTransfer I db from_ to_ amount cfg coinbase) := by
  have hb := (bypass_iff from_ to_ amount cfg coinbase).2 h
  have hb2 : ∀ rate : Nat,
      bypass from_ to_ amount ⟨cfg.TaxEnabled, rate, cfg.TreasuryAddress⟩ coinbase = true :=
    fun rate => (bypass_iff _ _ _ _ _).2 h
  refine ⟨mutations_of_bypass hb, fun σ I db => DyfusionTransfer_of_bypass I db hb, ?_⟩
  intro rate σ I db
  rw [DyfusionTransfer_of_bypass I db hb, DyfusionTransfer_of_bypass I db (hb2 rate)]

/-- C4, for a payment to the coinbase with tax enabled at rate 5. -/
theorem C4_bypass_mutations_witness :
    mutations acctA acctC 1000 (cfgRate 5) acctC =
      [Mutation.SubBalance acctA 1000 BalanceChangeReason.BalanceChangeTransfer,
        Mutation.AddBalance acctC 1000 BalanceChangeReason.BalanceChangeTransfer] :=
  (C4_bypass_mutations acctA acctC 1000 (cfgRate 5) acctC
    (Or.inr (Or.inr (Or.inr (Or.inr rfl))))).1

/-! ## C5: bypass on balances -/

/-- C5 (as stated) fails, in two ways. A transfer of 1000 out of the treasury
takes the bypass path and leaves the treasury 1000 lower, not unchanged. A
bypass transfer of 1000 to an account holding 2^256 - 1 does not leave that
account 1000 higher, because the credit wraps. -/
theorem C5_counterexample :
    (bypass acctT acctB 1000 (cfgRate 5) acctC = true ∧ acctT ≠ acctB ∧
      1000 ≤ sampleLedger 0 0 1000 0 acctT ∧
      DyfusionTransfer ledger (sampleLedger 0 0 1000 0) acctT acctB 1000 (cfgRate 5) acctC
          (cfgRate 5).TreasuryAddress ≠
        sampleLedger 0 0 1000 0 (cfgRate 5).TreasuryAddress) ∧
    (bypass acctA acctC 1000 (cfgRate 5) acctC = true ∧ acctA ≠ acctC ∧
      1000 ≤ sampleLedger 1000 0 0 maxUint256 acctA ∧
      DyfusionTransfer ledger (sampleLedger 1000 0 0 maxUint256) acctA acctC 1000 (cfgRate 5)
          acctC acctC ≠
        sampleLedger 1000 0 0 maxUint256 acctC + 1000) := by
  decide

/-- C5 (amended). Under any bypass condition: if the sender's balance is at
least `amount`, `from` differs from `to` and `to`'s balance plus `amount` is
below 2^256, then `from` ends `amount` lower and `to` ends `amount` higher; and
whenever the treasury is neither `from` nor `to`, its balance is unchanged. -/
theorem C5_bypass_on_balances (db : Ledger) (from_ to_ : Address) (amount : Nat)
    (cfg : ChainConfig) (coinbase : Address) (hwf : db.WF)
    (h : cfg.TaxEnabled = false ∨ amount = 0 ∨ from_ = cfg.TreasuryAddress ∨
      to_ = cfg.TreasuryAddress ∨ to_ = coinbase) :
    (amount ≤ db from_ → from_ ≠ to_ → db to_ + amount < uint256.MOD →
        DyfusionTransfer ledger db from_ to_ amount cfg coinbase from_ + amount = db from_ ∧
        DyfusionTransfer ledger db from_ to_ amount cfg coinbase to_ = db to_ + amount) ∧
      (cfg.TreasuryAddress ≠ from_ → cfg.TreasuryAddress ≠ to_ →
        DyfusionTransfer ledger db from_ to_ amount cfg coinbase cfg.TreasuryAddress =
          db cfg.TreasuryAddress) := by
  have hb := (bypass_iff from_ to_ amount cfg coinbase).2 h
  rw [DyfusionTransfer_of_bypass _ _ hb]
  refine ⟨?_, ?_⟩
  · intro hsuff hft hfit
    obtain ⟨e1, e2, -⟩ :=
      bypass_balances BalanceChangeReason.BalanceChangeTransfer
        BalanceChangeReason.BalanceChangeTransfer hwf hsuff hft hfit
    rw [e1, e2]
    exact ⟨by omega, rfl⟩
  · intro hTf hTt
    rw [debit_credit_apply, if_neg hTt, if_neg hTf]

/-- C5 (amended), for a payment of 1000 with tax disabled. -/
theorem C5_bypass_on_balances_witness :
    (DyfusionTransfer ledger (sampleLedger 5000 7 11 13) acctA acctB 1000 ⟨false, 5, acctT⟩
          acctC acctA + 1000 = 5000 ∧
      DyfusionTransfer ledger (sampleLedger 5000 7 11 13) acctA acctB 1000 ⟨false, 5, acctT⟩
          acctC acctB = 7 + 1000) ∧
    DyfusionTransfer ledger (sampleLedger 5000 7 11 13) acctA acctB 1000 ⟨false, 5, acctT⟩
        acctC acctT = 11 :=
  have h := C5_bypass_on_balances (sampleLedger 5000 7 11 13) acctA acctB 1000
    ⟨false, 5, acctT⟩ acctC
    (sampleLedger_WF (by decide) (by decide) (by decide) (by decide)) (Or.inl rfl)
  ⟨h.1 (by decide) (by decide) (by decide), h.2 (by decide) (by decide)⟩

/-! ## C6: the mutations of the taxed path -/

/-- C6. When no bypass condition holds the transfer issues exactly
`SubBalance(from, amount)`, `AddBalance(to, net)`, `AddBalance(treasury, tax)`,
in this order and each tagged as a transfer, with
tax = ((amount * rate) mod 2^256) / 100 and net = (amount - tax) mod 2^256;
nothing is assumed about `from` beyond its differing from the treasury. -/
theorem C6_taxed_mutations (from_ to_ : Address) (amount : Nat) (cfg : ChainConfig)
    (coinbase : Address)
    (he : cfg.TaxEnabled = true) (ha : amount ≠ 0) (hf : from_ ≠ cfg.TreasuryAddress)
    (ht : to_ ≠ cfg.TreasuryAddress) (hc : to_ ≠ coinbase) :
    mutations from_ to_ amount cfg coinbase =
        [Mutation.SubBalance from_ amount BalanceChangeReason.BalanceChangeTransfer,
          Mutation.AddBalance to_ (net amount cfg.TaxRate)
            BalanceChangeReason.BalanceChangeTransfer,
          Mutation.AddBalance cfg.TreasuryAddress (tax amount cfg.TaxRate)
            BalanceChangeReason.BalanceChangeTransfer] ∧
      tax amount cfg.TaxRate = (amount * cfg.TaxRate) % 2 ^ 256 / 100 ∧
      net amount cfg.TaxRate =
        (amount + (2 ^ 256 - tax amount cfg.TaxRate % 2 ^ 256)) % 2 ^ 256 := by
  have hb := (bypass_false_iff from_ to_ amount cfg coinbase).2 ⟨he, ha, hf, ht, hc⟩
  exact ⟨mutations_of_taxed hb, tax_eq _ _, rfl⟩

/-- C6, for a sender that is the coinbase. -/
theorem C6_taxed_mutations_witness :
    (cfgRate 5).TaxEnabled = true ∧ 1000 ≠ 0 ∧ acctC ≠ (cfgRate 5).TreasuryAddress ∧
      acctB ≠ (cfgRate 5).TreasuryAddress ∧ acctB ≠ acctC ∧
      mutations acctC acctB 1000 (cfgRate 5) acctC =
        [Mutation.SubBalance acctC 1000 BalanceChangeReason.BalanceChangeTransfer,
          Mutation.AddBalance acctB 950 BalanceChangeReason.BalanceChangeTransfer,
          Mutation.AddBalance acctT 50 BalanceChangeReason.BalanceChangeTransfer] :=
  ⟨rfl, by decide, by decide, by decide, by decide,
    (C6_taxed_mutations acctC acctB 1000 (cfgRate 5) acctC rfl (by decide) (by decide)
      (by decide) (by decide)).1⟩

/-! ## C7: no underflow -/

/-- C7. For a 256-bit amount and a rate of at most 100 the computed tax is at
most the amount, the subtraction computing net does not wrap, and net plus tax
is the amount, also when the 256-bit product amount * rate wraps. -/
theorem C7_no_underflow (amount rate : Nat) (ha : amount < uint256.MOD)
    (hr : rate ≤ 100) :
    tax amount rate ≤ amount ∧ net amount rate = amount - tax amount rate ∧
      net amount rate + tax amount rate = amount := by
  have ht := tax_le_amount ha hr
  have hn := net_eq_sub ha hr
  refine ⟨ht, hn, ?_⟩
  omega

/-- C7, at the largest amount and rate 100, where the product wraps. -/
theorem C7_no_underflow_witness :
    maxUint256 < uint256.MOD ∧ 100 ≤ 100 ∧ uint256.MOD ≤ maxUint256 * 100 ∧
      (tax maxUint256 100 ≤ maxUint256 ∧
        net maxUint256 100 = maxUint256 - tax maxUint256 100 ∧
        net maxUint256 100 + tax maxUint256 100 = maxUint256) :=
  ⟨by decide, by decide, by decide, C7_no_underflow maxUint256 100 (by decide) (by decide)⟩

/-! ## C8: zero rate -/

/-- C8. On a ledger of 256-bit balances and for a 256-bit amount, the transfer
with tax enabled at rate 0 leaves every account with the balance it has after
the transfer with tax disabled (at any rate): the computed tax is 0 and the
computed net is the full amount. -/
theorem C8_zero_rate (db : Ledger) (from_ to_ : Address) (amount : Nat)
    (treasury coinbase : Address) (rate : Nat)
    (hwf : db.WF) (ha : amount < uint256.MOD) :
    DyfusionTransfer ledger db from_ to_ amount ⟨true, 0, treasury⟩ coinbase =
        DyfusionTransfer ledger db from_ to_ amount ⟨false, rate, treasury⟩ coinbase ∧
      tax amount 0 = 0 ∧ net amount 0 = amount := by
  have htax : tax amount 0 = 0 := by simp [tax_eq]
  have hnet : net amount 0 = amount := by
    rw [net_eq_sub ha (Nat.zero_le _), htax, Nat.sub_zero]
  refine ⟨?_, htax, hnet⟩
  have hoff : bypass from_ to_ amount ⟨false, rate, treasury⟩ coinbase = true :=
    (bypass_iff _ _ _ _ _).2 (Or.inl rfl)
  rw [DyfusionTransfer_of_bypass _ _ hoff]
  by_cases hb : bypass from_ to_ amount ⟨true, 0, treasury⟩ coinbase = true
  · rw [DyfusionTransfer_of_bypass _ _ hb]
  · have hb2 : bypass from_ to_ amount ⟨true, 0, treasury⟩ coinbase = false := by
      simpa using hb
    obtain ⟨-, -, hfT, htT, -⟩ := (bypass_false_iff _ _ _ _ _).1 hb2
    simp only at hfT htT
    rw [DyfusionTransfer_of_taxed _ _ hb2]
    simp only [htax, hnet]
    funext x
    rw [ledger_AddBalance_apply]
    split_ifs with hx
    · subst hx
      rw [debit_credit_apply, if_neg htT.symm, if_neg hfT.symm,
        uint256.Add_of_lt (by simpa using hwf x)]
      rfl
    · rfl

/-- C8, at amount 1000 between distinct accounts. -/
theorem C8_zero_rate_witness :
    DyfusionTransfer ledger (sampleLedger 5000 7 11 13) acctA acctB 1000 ⟨true, 0, acctT⟩
        acctC =
      DyfusionTransfer ledger (sampleLedger 5000 7 11 13) acctA acctB 1000 ⟨false, 5, acctT⟩
        acctC :=
  (C8_zero_rate (sampleLedger 5000 7 11 13) acctA acctB 1000 acctT acctC 5
    (sampleLedger_WF (by decide) (by decide) (by decide) (by decide)) (by decide)).1

/-! ## C9: coinbase exemption -/

/-- C9 (as stated) fails, in two ways. A payment of 1 to the coinbase from an
account holding 0 leaves the sender at 2^256 - 1, not 1 lower. A payment of
1000 to a coinbase holding 2^256 - 1 leaves the coinbase at 999, not 1000
higher. -/
theorem C9_counterexample :
    ((cfgRate 5).TaxEnabled = true ∧ acctA ≠ acctC ∧ acctA ≠ (cfgRate 5).TreasuryAddress ∧
      acctC ≠ (cfgRate 5).TreasuryAddress ∧
      DyfusionTransfer ledger (sampleLedger 0 0 0 0) acctA acctC 1 (cfgRate 5) acctC acctA =
        maxUint256 ∧
      DyfusionTransfer ledger (sampleLedger 0 0 0 0) acctA acctC 1 (cfgRate 5) acctC acctA + 1 ≠
        sampleLedger 0 0 0 0 acctA) ∧
    (DyfusionTransfer ledger (sampleLedger 1000 0 0 maxUint256) acctA acctC 1000 (cfgRate 5)
          acctC acctC = 999 ∧
      DyfusionTransfer ledger (sampleLedger 1000 0 0 maxUint256) acctA acctC 1000 (cfgRate 5)
          acctC acctC ≠
        sampleLedger 1000 0 0 maxUint256 acctC + 1000) := by
  decide

/-- C9 (amended). With tax enabled at any rate, `to` the coinbase, and `from`,
the coinbase and the treasury pairwise distinct: the treasury balance is
unchanged for every amount; `from` ends exactly `amount` lower when its balance
is at least `amount`; the coinbase ends the full `amount` higher when its
balance plus `amount` is below 2^256. -/
theorem C9_coinbase_exemption (db : Ledger) (from_ : Address) (amount rate : Nat)
    (treasury coinbase : Address) (hwf : db.WF) (hfc : from_ ≠ coinbase)
    (hfT : from_ ≠ treasury) (hcT : coinbase ≠ treasury) :
    DyfusionTransfer ledger db from_ coinbase amount ⟨true, rate, treasury⟩ coinbase treasury =
        db treasury ∧
      (amount ≤ db from_ →
        DyfusionTransfer ledger db from_ coinbase amount ⟨true, rate, treasury⟩ coinbase from_ +
          amount = db from_) ∧
      (db coinbase + amount < uint256.MOD →
        DyfusionTransfer ledger db from_ coinbase amount ⟨true, rate, treasury⟩ coinbase
          coinbase = db coinbase + amount) := by
  have hb : bypass from_ coinbase amount ⟨true, rate, treasury⟩ coinbase = true :=
    (bypass_iff _ _ _ _ _).2 (Or.inr (Or.inr (Or.inr (Or.inr rfl))))
  rw [DyfusionTransfer_of_bypass _ _ hb]
  refine ⟨?_, ?_, ?_⟩
  · rw [debit_credit_apply, if_neg hcT.symm, if_neg hfT.symm]
  · intro hsuff
    rw [debit_credit_apply, if_neg hfc, if_pos rfl, uint256.Sub_of_le (hwf from_) hsuff]
    omega
  · intro hfit
    rw [debit_credit_apply, if_pos rfl, if_neg hfc.symm, uint256.Add_of_lt hfit]

/-- C9 (amended), at rate 5 and amount 1000: A ends 1000 lower, C 1000 higher,
T unchanged. -/
theorem C9_coinbase_exemption_witness :
    DyfusionTransfer ledger (sampleLedger 5000 7 11 13) acctA acctC 1000 (cfgRate 5) acctC
        acctT = 11 ∧
      DyfusionTransfer ledger (sampleLedger 5000 7 11 13) acctA acctC 1000 (cfgRate 5) acctC
        acctA + 1000 = 5000 ∧
      DyfusionTransfer ledger (sampleLedger 5000 7 11 13) acctA acctC 1000 (cfgRate 5) acctC
        acctC = 13 + 1000 :=
  have h := C9_coinbase_exemption (sampleLedger 5000 7 11 13) acctA 1000 5 acctT acctC
    (sampleLedger_WF (by decide) (by decide) (by decide) (by decide)) (by decide)
    (by decide) (by decide)
  ⟨h.1, h.2.1 (by decide), h.2.2 (by decide)⟩

/-! ## C10: treasury-origin exemption -/

/-- C10 (as stated) fails, in two ways. A payment of 1 out of a treasury
holding 0 leaves the treasury at 2^256 - 1, not 1 lower. A payment of 1000 out
of the treasury to an account holding 2^256 - 1 leaves that account at 999, not
1000 higher. -/
theorem C10_counterexample :
    ((cfgRate 5).TaxEnabled = true ∧ acctB ≠ (cfgRate 5).TreasuryAddress ∧
      DyfusionTransfer ledger (sampleLedger 0 0 0 0) (cfgRate 5).TreasuryAddress acctB 1
          (cfgRate 5) acctC (cfgRate 5).TreasuryAddress = maxUint256 ∧
      DyfusionTransfer ledger (sampleLedger 0 0 0 0) (cfgRate 5).TreasuryAddress acctB 1
          (cfgRate 5) acctC (cfgRate 5).TreasuryAddress + 1 ≠
        sampleLedger 0 0 0 0 (cfgRate 5).TreasuryAddress) ∧
    (DyfusionTransfer ledger (sampleLedger 0 maxUint256 1000 0) (cfgRate 5).TreasuryAddress
          acctB 1000 (cfgRate 5) acctC acctB = 999 ∧
      DyfusionTransfer ledger (sampleLedger 0 maxUint256 1000 0) (cfgRate 5).TreasuryAddress
          acctB 1000 (cfgRate 5) acctC acctB ≠
        sampleLedger 0 maxUint256 1000 0 acctB + 1000) := by
  decide

/-- C10 (amended). With tax enabled at any rate, `from` the treasury and `to` a
different account: the only mutations are the debit of `amount` from the
treasury and the credit of the full `amount` to `to` (no tax is computed and
nothing is credited to the treasury); the treasury ends exactly `amount` lower
when its balance is at least `amount`; `to` ends the full `amount` higher when
its balance plus `amount` is below 2^256. -/
theorem C10_treasury_origin (db : Ledger) (to_ : Address) (amount rate : Nat)
    (treasury coinbase : Address) (hwf : db.WF) (hne : to_ ≠ treasury) :
    mutations treasury to_ amount ⟨true, rate, treasury⟩ coinbase =
        [Mutation.SubBalance treasury amount BalanceChangeReason.BalanceChangeTransfer,
          Mutation.AddBalance to_ amount BalanceChangeReason.BalanceChangeTransfer] ∧
      (amount ≤ db treasury →
        DyfusionTransfer ledger db treasury to_ amount ⟨true, rate, treasury⟩ coinbase treasury +
          amount = db treasury) ∧
      (db to_ + amount < uint256.MOD →
        DyfusionTransfer ledger db treasury to_ amount ⟨true, rate, treasury⟩ coinbase to_ =
          db to_ + amount) := by
  have hb : bypass treasury to_ amount ⟨true, rate, treasury⟩ coinbase = true :=
    (bypass_iff _ _ _ _ _).2 (Or.inr (Or.inr (Or.inl rfl)))
  rw [DyfusionTransfer_of_bypass _ _ hb]
  refine ⟨mutations_of_bypass hb, ?_, ?_⟩
  · intro hsuff
    rw [debit_credit_apply, if_neg hne.symm, if_pos rfl, uint256.Sub_of_le (hwf treasury) hsuff]
    omega
  · intro hfit
    rw [debit_credit_apply, if_pos rfl, if_neg hne, uint256.Add_of_lt hfit]

/-- C10 (amended), at rate 5 and amount 1000 out of a treasury holding 3000. -/
theorem C10_treasury_origin_witness :
    mutations acctT acctB 1000 (cfgRate 5) acctC =
        [Mutation.SubBalance acctT 1000 BalanceChangeReason.BalanceChangeTransfer,
          Mutation.AddBalance acctB 1000 BalanceChangeReason.BalanceChangeTransfer] ∧
      DyfusionTransfer ledger (sampleLedger 5000 7 3000 13) acctT acctB 1000 (cfgRate 5) acctC
        acctT + 1000 = 3000 ∧
      DyfusionTransfer ledger (sampleLedger 5000 7 3000 13) acctT acctB 1000 (cfgRate 5) acctC
        acctB = 7 + 1000 :=
  have h := C10_treasury_origin (sampleLedger 5000 7 3000 13) acctB 1000 5 acctT acctC
    (sampleLedger_WF (by decide) (by decide) (by decide) (by decide)) (by decide)
  ⟨h.1, h.2.1 (by decide), h.2.2 (by decide)⟩

/-! ## C11: frame -/

/-- C11. For every input the transfer leaves unchanged the balance of every
account other than `from`, `to` and the treasury; and under any bypass
condition it leaves unchanged the balance of every account other than `from`
and `to`, so also the treasury when it is neither of them. -/
theorem C11_frame (db : Ledger) (from_ to_ : Address) (amount : Nat)
    (cfg : ChainConfig) (coinbase : Address) :
    (∀ x, x ≠ from_ → x ≠ to_ → x ≠ cfg.TreasuryAddress →
        DyfusionTransfer ledger db from_ to_ amount cfg coinbase x = db x) ∧
      ((cfg.TaxEnabled = false ∨ amount = 0 ∨ from_ = cfg.TreasuryAddress ∨
          to_ = cfg.TreasuryAddress ∨ to_ = coinbase) →
        (∀ x, x ≠ from_ → x ≠ to_ →
          DyfusionTransfer ledger db from_ to_ amount cfg coinbase x = db x) ∧
        (cfg.TreasuryAddress ≠ from_ → cfg.TreasuryAddress ≠ to_ →
          DyfusionTransfer ledger db from_ to_ amount cfg coinbase cfg.TreasuryAddress =
            db cfg.TreasuryAddress)) := by
  refine ⟨?_, ?_⟩
  · intro x hxf hxt hxT
    by_cases hb : bypass from_ to_ amount cfg coinbase = true
    · rw [DyfusionTransfer_of_bypass _ _ hb, debit_credit_apply, if_neg hxt, if_neg hxf]
    · have hb2 : bypass from_ to_ amount cfg coinbase = false := by simpa using hb
      rw [DyfusionTransfer_of_taxed _ _ hb2, ledger_AddBalance_apply, if_neg hxT,
        debit_credit_apply, if_neg hxt, if_neg hxf]
  · intro h
    have hb := (bypass_iff from_ to_ amount cfg coinbase).2 h
    rw [DyfusionTransfer_of_bypass _ _ hb]
    refine ⟨?_, ?_⟩
    · intro x hxf hxt
      rw [debit_credit_apply, if_neg hxt, if_neg hxf]
    · intro hTf hTt
      rw [debit_credit_apply, if_neg hTt, if_neg hTf]

/-- C11, on a taxed payment from A to B (the coinbase C is untouched) and on a
payment from A to the coinbase (B and the treasury T are untouched). -/
theorem C11_frame_witness :
    DyfusionTransfer ledger (sampleLedger 5000 7 11 13) acctA acctB 1000 (cfgRate 5) acctC
        acctC = 13 ∧
      DyfusionTransfer ledger (sampleLedger 5000 7 11 13) acctA acctC 1000 (cfgRate 5) acctC
        acctB = 7 ∧
      DyfusionTransfer ledger (sampleLedger 5000 7 11 13) acctA acctC 1000 (cfgRate 5) acctC
        acctT = 11 :=
  ⟨(C11_frame (sampleLedger 5000 7 11 13) acctA acctB 1000 (cfgRate 5) acctC).1 acctC
      (by decide) (by decide) (by decide),
    ((C11_frame (sampleLedger 5000 7 11 13) acctA acctC 1000 (cfgRate 5) acctC).2
      (Or.inr (Or.inr (Or.inr (Or.inr rfl))))).1 acctB (by decide) (by decide),
    ((C11_frame (sampleLedger 5000 7 11 13) acctA acctC 1000 (cfgRate 5) acctC).2
      (Or.inr (Or.inr (Or.inr (Or.inr rfl))))).2 (by decide) (by decide)⟩

/-! ## C12: the wrapped tax -/

/-- C12. The tax the transfer computes, and credits to the treasury on the
taxed path, is floor(((amount * rate) mod 2^256) / 100); it equals
floor(amount * rate / 100) exactly when amount * rate is below 2^256, and so
for every amount up to floor((2^256 - 1) / 100) when the rate is at most 100.
This holds for all natural numbers, in particular for 256-bit amounts and
64-bit rates. -/
theorem C12_tax_wrap (amount rate : Nat) :
    tax amount rate = (amount * rate) % 2 ^ 256 / 100 ∧
      (∀ from_ to_ treasury coinbase : Address,
        bypass from_ to_ amount ⟨true, rate, treasury⟩ coinbase = false →
        (mutations from_ to_ amount ⟨true, rate, treasury⟩ coinbase).getLast? =
          some (Mutation.AddBalance treasury ((amount * rate) % 2 ^ 256 / 100)
            BalanceChangeReason.BalanceChangeTransfer)) ∧
      (tax amount rate = amount * rate / 100 ↔ amount * rate < 2 ^ 256) ∧
      (rate ≤ 100 → amount ≤ (2 ^ 256 - 1) / 100 →
        tax amount rate = amount * rate / 100) := by
  refine ⟨tax_eq _ _, ?_, tax_exact_iff _ _, ?_⟩
  · intro from_ to_ treasury coinbase hb
    rw [mutations_of_taxed hb]
    simp [tax_eq, uint256.MOD]
  · intro hr ha
    apply tax_of_no_wrap
    have h1 : amount * rate ≤ amount * 100 := Nat.mul_le_mul_left amount hr
    rw [uint256.MOD_eq]
    norm_num at ha
    omega

/-- C12, at the largest amount and rate 2 (the product wraps, the tax is not
exact) and at amount floor((2^256 - 1) / 100) and rate 100 (exact). -/
theorem C12_tax_wrap_witness :
    (¬ maxUint256 * 2 < 2 ^ 256 ∧ tax maxUint256 2 ≠ maxUint256 * 2 / 100) ∧
      tax ((2 ^ 256 - 1) / 100) 100 = (2 ^ 256 - 1) / 100 * 100 / 100 :=
  ⟨⟨by decide, fun h => absurd ((C12_tax_wrap maxUint256 2).2.2.1.1 h) (by decide)⟩,
    (C12_tax_wrap ((2 ^ 256 - 1) / 100) 100).2.2.2 (by decide) (by decide)⟩

/-! ## C13: conservation modulo 2^256 -/

/-- C13. For every amount and rate, also rates above 100 where the tax exceeds
the amount and net wraps, net + tax is the amount modulo 2^256; and for every
input, with no condition on the sender's balance, the sum of all account
balances is the same modulo 2^256 before and after the transfer. -/
theorem C13_conservation_mod (db : Ledger) (from_ to_ : Address) (amount : Nat)
    (cfg : ChainConfig) (coinbase : Address) :
    (net amount cfg.TaxRate + tax amount cfg.TaxRate) % 2 ^ 256 = amount % 2 ^ 256 ∧
      totalSupply (DyfusionTransfer ledger db from_ to_ amount cfg coinbase) % 2 ^ 256 =
        totalSupply db % 2 ^ 256 := by
  have hnt := net_add_tax_mod amount cfg.TaxRate
  have hs := totalSupply_SubBalance db from_ amount BalanceChangeReason.BalanceChangeTransfer
  refine ⟨hnt, ?_⟩
  by_cases hb : bypass from_ to_ amount cfg coinbase = true
  · rw [DyfusionTransfer_of_bypass _ _ hb]
    have h1 := totalSupply_AddBalance
      (ledger.SubBalance db from_ amount BalanceChangeReason.BalanceChangeTransfer) to_ amount
      BalanceChangeReason.BalanceChangeTransfer
    show _ % uint256.MOD = _ % uint256.MOD
    rw [h1, hs]
  · have hb2 : bypass from_ to_ amount cfg coinbase = false := by simpa using hb
    rw [DyfusionTransfer_of_taxed _ _ hb2]
    have h1 := totalSupply_AddBalance
      (ledger.SubBalance db from_ amount BalanceChangeReason.BalanceChangeTransfer) to_
      (net amount cfg.TaxRate) BalanceChangeReason.BalanceChangeTransfer
    have h2 := totalSupply_AddBalance
      (ledger.AddBalance
        (ledger.SubBalance db from_ amount BalanceChangeReason.BalanceChangeTransfer) to_
        (net amount cfg.TaxRate) BalanceChangeReason.BalanceChangeTransfer)
      cfg.TreasuryAddress (tax amount cfg.TaxRate) BalanceChangeReason.BalanceChangeTransfer
    show _ % uint256.MOD = _ % uint256.MOD
    rw [h2]
    rw [uint256.MOD_eq] at *
    omega

/-- C13, at amount 100 and rate 200 from a sender holding nothing: the tax, 200,
exceeds the amount and net wraps to 2^256 - 100. -/
theorem C13_conservation_mod_witness :
    100 < tax 100 200 ∧ net 100 200 = 2 ^ 256 - 100 ∧
      sampleLedger 0 7 11 13 acctA < 100 ∧
      ((net 100 (cfgRate 200).TaxRate + tax 100 (cfgRate 200).TaxRate) % 2 ^ 256 =
          100 % 2 ^ 256 ∧
        totalSupply (DyfusionTransfer ledger (sampleLedger 0 7 11 13) acctA acctB 100
            (cfgRate 200) acctC) % 2 ^ 256 =
          totalSupply (sampleLedger 0 7 11 13) % 2 ^ 256) :=
  ⟨by decide, by decide, by decide,
    C13_conservation_mod (sampleLedger 0 7 11 13) acctA acctB 100 (cfgRate 200) acctC⟩

/-! ## C14: self-transfer -/

/-- C14 (as stated) fails: a taxed self-transfer of 1000 at rate 5 while the
treasury holds 2^256 - 1 leaves the treasury at 49, not 50 higher, because the
credit wraps. -/
theorem C14_counterexample :
    bypass acctA acctA 1000 (cfgRate 5) acctC = false ∧ (cfgRate 5).TaxRate ≤ 100 ∧
      1000 ≤ sampleLedger 1000 0 maxUint256 0 acctA ∧
      DyfusionTransfer ledger (sampleLedger 1000 0 maxUint256 0) acctA acctA 1000 (cfgRate 5)
        acctC acctT = 49 ∧
      DyfusionTransfer ledger (sampleLedger 1000 0 maxUint256 0) acctA acctA 1000 (cfgRate 5)
          acctC acctT ≠
        sampleLedger 1000 0 maxUint256 0 acctT + tax 1000 (cfgRate 5).TaxRate := by
  decide

/-- C14 (amended). Self-transfer on a ledger of 256-bit balances. Under a bypass
condition every balance is the same after the transfer as before, whatever the
amount. On the taxed path (tax enabled, amount non-zero, the account neither
treasury nor coinbase, rate at most 100, balance at least `amount`) the account
ends exactly `tax` lower, and the treasury ends exactly `tax` higher when its
balance plus `tax` is below 2^256. -/
theorem C14_self_transfer (db : Ledger) (acct : Address) (amount : Nat)
    (cfg : ChainConfig) (coinbase : Address) (hwf : db.WF) :
    ((cfg.TaxEnabled = false ∨ amount = 0 ∨ acct = cfg.TreasuryAddress ∨ acct = coinbase) →
        DyfusionTransfer ledger db acct acct amount cfg coinbase = db) ∧
      (cfg.TaxEnabled = true → amount ≠ 0 → acct ≠ cfg.TreasuryAddress → acct ≠ coinbase →
        cfg.TaxRate ≤ 100 → amount ≤ db acct →
        DyfusionTransfer ledger db acct acct amount cfg coinbase acct +
            tax amount cfg.TaxRate = db acct ∧
          (db cfg.TreasuryAddress + tax amount cfg.TaxRate < uint256.MOD →
            DyfusionTransfer ledger db acct acct amount cfg coinbase cfg.TreasuryAddress =
              db cfg.TreasuryAddress + tax amount cfg.TaxRate)) := by
  refine ⟨?_, ?_⟩
  · intro h
    have hb : bypass acct acct amount cfg coinbase = true := by
      rw [bypass_iff]
      rcases h with h | h | h | h
      · exact Or.inl h
      · exact Or.inr (Or.inl h)
      · exact Or.inr (Or.inr (Or.inl h))
      · exact Or.inr (Or.inr (Or.inr (Or.inr h)))
    rw [DyfusionTransfer_of_bypass _ _ hb]
    exact debit_credit_self acct amount _ _ hwf
  · intro he ha hT hc hr hsuff
    have hb := (bypass_false_iff acct acct amount cfg coinbase).2 ⟨he, ha, hT, hT, hc⟩
    have hf := hwf acct
    have hlt : amount < uint256.MOD := lt_of_le_of_lt hsuff hf
    have htax := tax_le_amount hlt hr
    have hnet := net_eq_sub hlt hr
    rw [DyfusionTransfer_of_taxed _ _ hb]
    refine ⟨?_, ?_⟩
    · rw [ledger_AddBalance_apply, if_neg hT, debit_credit_apply, if_pos rfl, if_pos rfl,
        uint256.Sub_of_le hf hsuff, uint256.Add_of_lt (by omega)]
      omega
    · intro hfit
      rw [ledger_AddBalance_apply, if_pos rfl, debit_credit_apply, if_neg hT.symm,
        if_neg hT.symm, uint256.Add_of_lt hfit]

/-- C14 (amended), at amount 1000: with tax disabled the ledger is unchanged;
at rate 5 the account ends 50 lower and the treasury 50 higher. -/
theorem C14_self_transfer_witness :
    DyfusionTransfer ledger (sampleLedger 5000 7 11 13) acctA acctA 1000 ⟨false, 5, acctT⟩
        acctC = sampleLedger 5000 7 11 13 ∧
      tax 1000 5 = 50 ∧
      DyfusionTransfer ledger (sampleLedger 5000 7 11 13) acctA acctA 1000 (cfgRate 5) acctC
        acctA + 50 = 5000 ∧
      DyfusionTransfer ledger (sampleLedger 5000 7 11 13) acctA acctA 1000 (cfgRate 5) acctC
        acctT = 11 + 50 :=
  have hwf : (sampleLedger 5000 7 11 13).WF :=
    sampleLedger_WF (by decide) (by decide) (by decide) (by decide)
  have h := (C14_self_transfer (sampleLedger 5000 7 11 13) acctA 1000 (cfgRate 5) acctC hwf).2
    rfl (by decide) (by decide) (by decide) (by decide) (by decide)
  ⟨(C14_self_transfer (sampleLedger 5000 7 11 13) acctA 1000 ⟨false, 5, acctT⟩ acctC hwf).1
      (Or.inl rfl),
    by decide, h.1, h.2 (by decide)⟩

end DFX
